import Mathlib

/-!
Verification development for the fpl-brain repository.

The React frontend (src/App.jsx, given as src/unnamed/part_003) contains the
squad-planner logic verified here: `calculateOptimalXI` (formation scan and
lineup construction), the planned-transfer state updates `handleTryTransfer` /
`handleRemoveTransfer`, the squad-planner hit-cost and net-gain arithmetic,
and the captain / vice-captain selection of `StartingXIView`.

The Python engine `scripts/projections.py` is not part of the sources; the
components that live only there (expected-minutes estimator, point projection
model, transfer recommender) are modelled from the specification, and each such
definition is marked `Modelled from the spec:` in its doc comment.

Numbers are embedded as rationals (the JS code computes with IEEE doubles on
small decimal inputs; the claims under study are about exact formulas,
comparisons and counts, not rounding).
-/

namespace FPL

/-- Player position, the four FPL positions (strings GK/DEF/MID/FWD in the
frontend, numeric 1-4 in the squad JSON). -/
inductive Pos where
  | GK
  | DEF
  | MID
  | FWD
deriving DecidableEq

/-- A scored player as `calculateOptimalXI` consumes it: an entry of
`starting_xi` / `bench` of starting_xi.json (fields actually read by the
code under verification). -/
structure PlayerX where
  name : String
  team : String
  position : Pos
  effective_pts : ℚ
  projected_pts : ℚ
  xmin : ℚ
deriving DecidableEq

/-- Descending order on effective points, the comparator
`(b.effective_pts || 0) - (a.effective_pts || 0)` used by the frontend sorts. -/
def effGE (a b : PlayerX) : Prop :=
  b.effective_pts ≤ a.effective_pts

instance : DecidableRel effGE :=
  fun a b => inferInstanceAs (Decidable (b.effective_pts ≤ a.effective_pts))

instance : IsTotal PlayerX effGE :=
  ⟨fun a b => le_total b.effective_pts a.effective_pts⟩

instance : IsTrans PlayerX effGE :=
  ⟨fun _ _ _ hab hbc => le_trans hbc hab⟩

/-- The players of one position, best effective points first: the
group-by-position and sort-descending steps of `calculateOptimalXI`
(part_003 lines 462-469). -/
def byPosition (squad : List PlayerX) (pos : Pos) : List PlayerX :=
  List.insertionSort effGE (squad.filter (fun p => decide (p.position = pos)))

/-- A formation: defender / midfielder / forward counts (goalkeeper count is
always 1 and is kept implicit, as in the code). -/
structure Formation where
  dcount : Nat
  mcount : Nat
  fcount : Nat
deriving DecidableEq

/-- The formations the frontend recalculation actually tries, in source order
(part_003 lines 480-487): six of the eight legal FPL formations. -/
def codeFormations : List Formation :=
  [⟨3, 5, 2⟩, ⟨3, 4, 3⟩, ⟨4, 4, 2⟩, ⟨4, 3, 3⟩, ⟨5, 3, 2⟩, ⟨5, 4, 1⟩]

/-- The fixed legal set of eight FPL formations, in the order the claim and
the engine documentation list them (part_000 lines 103-107). -/
def legalFormations : List Formation :=
  [⟨3, 4, 3⟩, ⟨3, 5, 2⟩, ⟨4, 3, 3⟩, ⟨4, 4, 2⟩, ⟨4, 5, 1⟩, ⟨5, 2, 3⟩, ⟨5, 3, 2⟩, ⟨5, 4, 1⟩]

/-- Sum of effective points of a list of players. -/
def sumEff (l : List PlayerX) : ℚ :=
  (l.map (fun p => p.effective_pts)).sum

/-- The squad can fill formation `f` at every outfield position
(the guard of the `formations.forEach` body, part_003 line 493). -/
def feasibleFor (squad : List PlayerX) (f : Formation) : Prop :=
  f.dcount ≤ (byPosition squad Pos.DEF).length ∧
    f.mcount ≤ (byPosition squad Pos.MID).length ∧
    f.fcount ≤ (byPosition squad Pos.FWD).length

instance (squad : List PlayerX) (f : Formation) : Decidable (feasibleFor squad f) :=
  inferInstanceAs (Decidable (f.dcount ≤ (byPosition squad Pos.DEF).length ∧
    f.mcount ≤ (byPosition squad Pos.MID).length ∧
    f.fcount ≤ (byPosition squad Pos.FWD).length))

/-- The score of a formation: sum of the top defender/midfielder/forward
effective points for the formation's counts (part_003 lines 494-497). -/
def totalFor (squad : List PlayerX) (f : Formation) : ℚ :=
  sumEff ((byPosition squad Pos.DEF).take f.dcount) +
    sumEff ((byPosition squad Pos.MID).take f.mcount) +
    sumEff ((byPosition squad Pos.FWD).take f.fcount)

/-- One step of the formation scan: replace the running best only on a strict
improvement by a feasible formation (part_003 lines 492-503). -/
def formationStep (squad : List PlayerX) (acc : Formation × ℚ) (f : Formation) :
    Formation × ℚ :=
  if feasibleFor squad f ∧ acc.2 < totalFor squad f then (f, totalFor squad f) else acc

/-- The full scan, started from `bestFormation = formations[0]` and
`bestTotal = 0` (part_003 lines 489-490). -/
def formationScan (squad : List PlayerX) : Formation × ℚ :=
  codeFormations.foldl (formationStep squad) (⟨3, 5, 2⟩, 0)

/-- The formation `calculateOptimalXI` settles on. -/
def chooseFormation (squad : List PlayerX) : Formation :=
  (formationScan squad).1

/-- The starting lineup built by `calculateOptimalXI` (part_003 lines 475-508):
`xi.push(byPosition.GK[0])` is unguarded, so the first slot of the JS array can
hold `undefined`; the slot is modelled as an `Option` entry.  The outfield
slots truncate each sorted position list to the chosen formation's counts. -/
def xiOf (squad : List PlayerX) : List (Option PlayerX) :=
  (byPosition squad Pos.GK).head? ::
    (((byPosition squad Pos.DEF).take (chooseFormation squad).dcount ++
        (byPosition squad Pos.MID).take (chooseFormation squad).mcount ++
        (byPosition squad Pos.FWD).take (chooseFormation squad).fcount).map some)

/-- Whether a lineup slot holds a goalkeeper. -/
def isGKslot (o : Option PlayerX) : Bool :=
  match o with
  | some p => decide (p.position = Pos.GK)
  | none => false

/-- The lineup sorted by descending effective points, as `StartingXIView`
computes `sortedByPts` (part_003 line 530). -/
def sortedByPts (xs : List PlayerX) : List PlayerX :=
  List.insertionSort effGE xs

/-- The captain pick: `sortedByPts[0]` (part_003 line 531). -/
def captainOf (xs : List PlayerX) : Option PlayerX :=
  (sortedByPts xs).head?

/-- The vice-captain pick: `sortedByPts[1]` (part_003 line 532). -/
def viceOf (xs : List PlayerX) : Option PlayerX :=
  (sortedByPts xs).tail.head?

/-- A planned transfer as the frontend passes it around (the fields the
verified code reads). -/
structure Transfer where
  out_id : Nat
  in_id : Nat
  out_name : String
  in_name : String
  in_cost : ℚ
  gain_4gw : ℚ
deriving DecidableEq

/-- A projection record from projections.json `top_by_position` (the fields
the verified code reads). -/
structure Projection where
  player_id : Nat
  team : String
  next_gw_pts : ℚ
  next_4gw_pts : ℚ
deriving DecidableEq

/-- The incoming-player record `calculateOptimalXI` builds when a planned
transfer replaces a squad player (part_003 lines 444-456): a flat `× 0.9`
effective-points multiplier, `xmin` set to the constant 80, and the position
kept from the outgoing player by the object spread. -/
def applyIncoming (player : PlayerX) (t : Transfer) (pr : Projection) : PlayerX :=
  { player with
      name := t.in_name
      team := pr.team
      effective_pts := pr.next_gw_pts * (9 / 10)
      projected_pts := pr.next_gw_pts
      xmin := 80 }

/-- The `newSquad` map of `calculateOptimalXI` (part_003 lines 439-460):
each squad player is replaced by the incoming player of a matching planned
transfer when the incoming projection is found, and kept unchanged otherwise. -/
def applyPlannedTransfers (squad : List PlayerX) (transfers : List Transfer)
    (projections : List Projection) : List PlayerX :=
  squad.map (fun player =>
    match transfers.find? (fun t => t.out_name == player.name) with
    | none => player
    | some t =>
      match projections.find? (fun pr => pr.player_id == t.in_id) with
      | none => player
      | some pr => applyIncoming player t pr)

/-- The `handleTryTransfer` state update (part_003 lines 868-879): the new
transfer is dropped when its outgoing player is already transferred out, or is
being brought in by an already-applied transfer; otherwise it is appended. -/
def handleTryTransfer (planned : List Transfer) (t : Transfer) : List Transfer :=
  if planned.any (fun p => p.out_id == t.out_id) then planned
  else if planned.any (fun p => p.in_id == t.out_id) then planned
  else planned ++ [t]

/-- The `handleRemoveTransfer` state update (part_003 lines 881-883). -/
def handleRemoveTransfer (planned : List Transfer) (t : Transfer) : List Transfer :=
  planned.filter (fun p => p.out_id != t.out_id)

/-- A my_team.json squad entry as `SquadPlannerView` reads it. -/
structure SquadPlayer where
  player_id : Nat
  name : String
  multiplier : Nat
  projected_pts : ℚ
  projected_4gw : ℚ
deriving DecidableEq

/-- The `plannedSquad` map of `SquadPlannerView` (part_003 lines 615-638):
a player matched by a planned transfer's outgoing id is replaced by the
incoming player's projection data (multiplier kept), otherwise unchanged. -/
def plannedSquadOf (currentSquad : List SquadPlayer) (transfers : List Transfer)
    (projections : List Projection) : List SquadPlayer :=
  currentSquad.map (fun player =>
    match transfers.find? (fun t => t.out_id == player.player_id) with
    | none => player
    | some t =>
      match projections.find? (fun pr => pr.player_id == t.in_id) with
      | none => player
      | some pr =>
        { player with
            player_id := t.in_id
            name := t.in_name
            projected_pts := pr.next_gw_pts
            projected_4gw := pr.next_4gw_pts })

/-- Four-gameweek squad total: sum of `projected_4gw` over the starters
(`multiplier > 0`), as `currentTotal4GW` / `plannedTotal4GW`
(part_003 lines 643-644). -/
def squadTotal4GW (squad : List SquadPlayer) : ℚ :=
  (squad.map (fun p => if 0 < p.multiplier then p.projected_4gw else 0)).sum

/-- The points penalty of the squad planner (part_003 line 648):
`plannedTransfers.length > 1 ? (plannedTransfers.length - 1) * 4 : 0`. -/
def hitCostOf (transfers : List Transfer) : ℚ :=
  if 1 < transfers.length then ((transfers.length - 1 : Nat) : ℚ) * 4 else 0

/-- `fourGWDiff` of the squad planner (part_003 lines 643-647). -/
def fourGWDiffOf (squad : List SquadPlayer) (transfers : List Transfer)
    (projections : List Projection) : ℚ :=
  squadTotal4GW (plannedSquadOf squad transfers projections) - squadTotal4GW squad

/-- `netGain4GW` of the squad planner (part_003 line 649). -/
def netGain4GWOf (squad : List SquadPlayer) (transfers : List Transfer)
    (projections : List Projection) : ℚ :=
  fourGWDiffOf squad transfers projections - hitCostOf transfers

/-- Rotation-risk tier of a player (spec section 4.1). -/
inductive RiskTier where
  | noRisk
  | medium
  | high
deriving DecidableEq

/-- Form-trend classification of a player (spec section 4.1). -/
inductive FormTrend where
  | hot
  | cold
  | neutral
deriving DecidableEq

/-- Modelled from the spec: the rotation-risk multiplier table of the
expected-minutes estimator (spec section 4.1, part_000 line 195); the engine
source scripts/projections.py is not among the repository sources. -/
def rotationFactor : RiskTier → ℚ
  | RiskTier.noRisk => 1
  | RiskTier.medium => 8 / 10
  | RiskTier.high => 65 / 100

/-- Modelled from the spec: the form-trend multiplier of the expected-minutes
estimator (spec section 4.1, part_000 line 196). -/
def formFactor : FormTrend → ℚ
  | FormTrend.hot => 105 / 100
  | FormTrend.cold => 9 / 10
  | FormTrend.neutral => 1

/-- Modelled from the spec: `base = min(90, season_minutes / max(1, season_starts))`
(spec section 4.1, part_000 line 194). -/
def baseMins (seasonMinutes : ℚ) (seasonStarts : Nat) : ℚ :=
  min 90 (seasonMinutes / ((max 1 seasonStarts : Nat) : ℚ))

/-- Modelled from the spec: the unclamped product
`base × availability × rotation_factor × form_factor` (spec section 4.1,
part_000 line 190). -/
def xMinRaw (seasonMinutes : ℚ) (seasonStarts : Nat) (availability : ℚ)
    (risk : RiskTier) (trend : FormTrend) : ℚ :=
  baseMins seasonMinutes seasonStarts * availability * rotationFactor risk *
    formFactor trend

/-- Modelled from the spec: the expected-minutes estimate, clamped to [0, 90]
(spec section 4.1: "Result is clamped to [0, 90]"). -/
def xMin (seasonMinutes : ℚ) (seasonStarts : Nat) (availability : ℚ)
    (risk : RiskTier) (trend : FormTrend) : ℚ :=
  min 90 (max 0 (xMinRaw seasonMinutes seasonStarts availability risk trend))

/-- Modelled from the spec: points for a goal by position (spec section 4.2:
6 for defenders/goalkeepers, 5 for midfielders, 4 for forwards). -/
def goalPoints : Pos → ℚ
  | Pos.GK => 6
  | Pos.DEF => 6
  | Pos.MID => 5
  | Pos.FWD => 4

/-- Modelled from the spec: the point projection formula (spec section 4.2,
part_000 lines 180-186). -/
def projectedPoints (pos : Pos) (xg90 xa90 minutesFraction difficulty csProb
    csPoints appearancePts bonusEstimate : ℚ) : ℚ :=
  xg90 * minutesFraction * goalPoints pos / difficulty +
    xa90 * minutesFraction * 3 / difficulty +
    csProb * csPoints + appearancePts + bonusEstimate

/-- Modelled from the spec: the engine's effective points,
`effective_pts = projected_pts × (xMin / 90)` (part_000 line 198). -/
def effectivePtsSpec (projected xm : ℚ) : ℚ :=
  projected * (xm / 90)

/-- A candidate-pool player as the Transfer Recommender sees it.  The horizon
projection `horizon_pts` is the player's projected points aggregated over the
planning window. -/
structure RPlayer where
  player_id : Nat
  club : Nat
  position : Pos
  price : ℚ
  horizon_pts : ℚ
deriving DecidableEq

/-- Number of squad players of club `c`. -/
def clubCount (squad : List RPlayer) (c : Nat) : Nat :=
  squad.countP (fun p => p.club == c)

/-- A transfer recommendation emitted by the recommender. -/
structure TransferRec where
  outP : RPlayer
  inP : RPlayer
  gain : ℚ
  worth_hit : Bool
  hit_value : ℚ
deriving DecidableEq

/-- Modelled from the spec: the incoming-candidate filter of the Transfer
Recommender (spec section 4.3): price at most the outgoing price plus the
bank, same position, and at most 3 players of the incoming club in the
resulting squad; scripts/projections.py is not among the repository sources. -/
def candidateOK (squad : List RPlayer) (bank : ℚ) (outP inP : RPlayer) : Bool :=
  decide (inP.price ≤ outP.price + bank) &&
    (inP.position == outP.position) &&
    decide (clubCount (inP :: squad.erase outP) inP.club ≤ 3)

/-- Modelled from the spec: the aggressive hit policy marks a swap worth a hit
exactly when the horizon gain strictly exceeds 4 points within the 3-gameweek
window (spec section 4.3, part_000 line 93). -/
def worthHit (gain : ℚ) : Bool :=
  decide (4 < gain)

/-- Modelled from the spec: net value of a swap taken on a hit,
`gain − 4` (spec section 4.3). -/
def hitValue (gain : ℚ) : ℚ :=
  gain - 4

/-- A recommendation for one (outgoing, incoming) pair: horizon gain is the
difference of horizon projections, with the hit-policy fields attached. -/
def mkRec (outP inP : RPlayer) : TransferRec :=
  { outP := outP
    inP := inP
    gain := inP.horizon_pts - outP.horizon_pts
    worth_hit := worthHit (inP.horizon_pts - outP.horizon_pts)
    hit_value := hitValue (inP.horizon_pts - outP.horizon_pts) }

/-- Modelled from the spec: the Transfer Recommender (spec section 4.3) —
for each outgoing squad player, a recommendation for every pool player that
passes the budget, position and club-limit filter. -/
def recommendTransfers (squad : List RPlayer) (bank : ℚ) (pool : List RPlayer) :
    List TransferRec :=
  squad.flatMap (fun outP =>
    (pool.filter (fun inP => candidateOK squad bank outP inP)).map
      (fun inP => mkRec outP inP))

/-- The invariant the claim states for the planned-transfer list: outgoing ids
pairwise distinct, and no transfer's outgoing player is another transfer's
incoming player. -/
def plannedInv (l : List Transfer) : Prop :=
  l.Pairwise (fun a b => a.out_id ≠ b.out_id) ∧
    ∀ a ∈ l, ∀ b ∈ l, a ≠ b → a.out_id ≠ b.in_id

instance (l : List Transfer) : Decidable (plannedInv l) :=
  inferInstanceAs (Decidable
    (l.Pairwise (fun (a b : Transfer) => a.out_id ≠ b.out_id) ∧
      ∀ a ∈ l, ∀ b ∈ l, a ≠ b → a.out_id ≠ b.in_id))

/-- The invariant `handleTryTransfer` actually maintains: outgoing ids pairwise
distinct, and each transfer's outgoing id differs from the incoming id of every
earlier-applied transfer. -/
def plannedInvD (l : List Transfer) : Prop :=
  l.Pairwise (fun a b => a.out_id ≠ b.out_id ∧ b.out_id ≠ a.in_id)

instance (l : List Transfer) : Decidable (plannedInvD l) :=
  inferInstanceAs (Decidable
    (l.Pairwise (fun (a b : Transfer) => a.out_id ≠ b.out_id ∧ b.out_id ≠ a.in_id)))

/-- A selection function that follows the claim's words for the Starting-XI
optimizer: over the full legal set of eight formations, keep the feasible
ones, and pick the one with maximal total, earliest listed on ties.  Stated
for comparison with `chooseFormation`, which is embedded from the source. -/
def specFormationChoice (squad : List PlayerX) : Option Formation :=
  ((legalFormations.filter (fun f => decide (feasibleFor squad f))).foldl
    (fun acc f =>
      match acc with
      | none => some (f, totalFor squad f)
      | some (b, bt) =>
        if bt < totalFor squad f then some (f, totalFor squad f) else some (b, bt))
    none).map Prod.fst

/-! ### Helper lemmas -/

theorem mem_byPosition {squad : List PlayerX} {pos : Pos} {p : PlayerX}
    (h : p ∈ byPosition squad pos) : p.position = pos := by
  have hf : p ∈ squad.filter (fun p => decide (p.position = pos)) :=
    (List.perm_insertionSort effGE _).mem_iff.mp h
  exact of_decide_eq_true (List.mem_filter.mp hf).2

theorem mem_take_byPosition {squad : List PlayerX} {pos : Pos} {p : PlayerX}
    {n : Nat} (h : p ∈ (byPosition squad pos).take n) : p.position = pos :=
  mem_byPosition (List.take_subset n _ h)

theorem foldl_step_no_update (squad : List PlayerX) :
    ∀ (l : List Formation) (acc : Formation × ℚ),
      (∀ f ∈ l, feasibleFor squad f → totalFor squad f ≤ acc.2) →
      l.foldl (formationStep squad) acc = acc := by
  intro l
  induction l with
  | nil => intro acc _; rfl
  | cons f rest ih =>
    intro acc h
    have hstep : formationStep squad acc f = acc := by
      unfold formationStep
      rw [if_neg]
      rintro ⟨hfeas, hlt⟩
      exact absurd (h f (List.mem_cons_self f rest) hfeas) (not_le.mpr hlt)
    rw [List.foldl_cons, hstep]
    exact ih acc (fun g hg => h g (List.mem_cons_of_mem f hg))

theorem foldl_step_shape (squad : List PlayerX) :
    ∀ (l : List Formation) (acc : Formation × ℚ),
      l.foldl (formationStep squad) acc = acc ∨
        ∃ f ∈ l, feasibleFor squad f ∧
          l.foldl (formationStep squad) acc = (f, totalFor squad f) := by
  intro l
  induction l with
  | nil => intro acc; exact Or.inl rfl
  | cons f rest ih =>
    intro acc
    by_cases hc : feasibleFor squad f ∧ acc.2 < totalFor squad f
    · have hstep : formationStep squad acc f = (f, totalFor squad f) := by
        unfold formationStep; rw [if_pos hc]
      rw [List.foldl_cons, hstep]
      rcases ih (f, totalFor squad f) with h | ⟨g, hg, hfeas, heq⟩
      · exact Or.inr ⟨f, List.mem_cons_self f rest, hc.1, h⟩
      · exact Or.inr ⟨g, List.mem_cons_of_mem f hg, hfeas, heq⟩
    · have hstep : formationStep squad acc f = acc := by
        unfold formationStep; rw [if_neg hc]
      rw [List.foldl_cons, hstep]
      rcases ih acc with h | ⟨g, hg, hfeas, heq⟩
      · exact Or.inl h
      · exact Or.inr ⟨g, List.mem_cons_of_mem f hg, hfeas, heq⟩

theorem foldl_step_snd_ge (squad : List PlayerX) :
    ∀ (l : List Formation) (acc : Formation × ℚ),
      acc.2 ≤ (l.foldl (formationStep squad) acc).2 := by
  intro l
  induction l with
  | nil => intro acc; exact le_refl _
  | cons f rest ih =>
    intro acc
    rw [List.foldl_cons]
    refine le_trans ?_ (ih (formationStep squad acc f))
    unfold formationStep
    by_cases hc : feasibleFor squad f ∧ acc.2 < totalFor squad f
    · rw [if_pos hc]; exact le_of_lt hc.2
    · rw [if_neg hc]

theorem foldl_step_le (squad : List PlayerX) :
    ∀ (l : List Formation) (acc : Formation × ℚ) (f : Formation), f ∈ l →
      feasibleFor squad f → totalFor squad f ≤ (l.foldl (formationStep squad) acc).2 := by
  intro l
  induction l with
  | nil => intro acc f hf; exact absurd hf (List.not_mem_nil f)
  | cons g rest ih =>
    intro acc f hf hfeas
    rw [List.foldl_cons]
    rcases List.mem_cons.mp hf with rfl | hmem
    · refine le_trans ?_ (foldl_step_snd_ge squad rest (formationStep squad acc f))
      unfold formationStep
      by_cases hc : feasibleFor squad f ∧ acc.2 < totalFor squad f
      · rw [if_pos hc]
      · rw [if_neg hc]
        rcases not_and_or.mp hc with h | h
        · exact absurd hfeas h
        · exact le_of_not_lt h
    · exact ih (formationStep squad acc g) f hmem hfeas

theorem chooseFormation_mem (squad : List PlayerX) :
    chooseFormation squad ∈ codeFormations := by
  unfold chooseFormation formationScan
  rcases foldl_step_shape squad codeFormations (⟨3, 5, 2⟩, 0) with h | ⟨f, hf, _, heq⟩
  · rw [h]; decide
  · rw [heq]; exact hf

theorem clubCount_le_of_forall_mem (squad : List RPlayer)
    (h : ∀ p ∈ squad, clubCount squad p.club ≤ 3) (c : Nat) :
    clubCount squad c ≤ 3 := by
  by_cases hc : ∃ p ∈ squad, p.club = c
  · obtain ⟨p, hp, rfl⟩ := hc
    exact h p hp
  · push_neg at hc
    have : clubCount squad c = 0 := by
      apply List.countP_eq_zero.mpr
      intro p hp
      simpa using hc p hp
    omega

/-! ### Concrete instances used by counterexamples and witnesses -/

/-- A squad player with the given name, position and effective points. -/
def mkPlayer (nm : String) (pos : Pos) (eff : ℚ) : PlayerX :=
  { name := nm, team := "T", position := pos, effective_pts := eff,
    projected_pts := eff, xmin := 90 }

/-- A full 15-player squad (2 GK, 5 DEF, 5 MID, 3 FWD) whose defenders and
forwards far outscore its midfielders, so that the 5-2-3 formation — absent
from the frontend's list — would be optimal over the legal set of eight. -/
def c1squad : List PlayerX :=
  [mkPlayer "g1" Pos.GK 1, mkPlayer "g2" Pos.GK 1,
   mkPlayer "d1" Pos.DEF 10, mkPlayer "d2" Pos.DEF 10, mkPlayer "d3" Pos.DEF 10,
   mkPlayer "d4" Pos.DEF 10, mkPlayer "d5" Pos.DEF 10,
   mkPlayer "m1" Pos.MID 0, mkPlayer "m2" Pos.MID 0, mkPlayer "m3" Pos.MID 0,
   mkPlayer "m4" Pos.MID 0, mkPlayer "m5" Pos.MID 0,
   mkPlayer "f1" Pos.FWD 10, mkPlayer "f2" Pos.FWD 10, mkPlayer "f3" Pos.FWD 10]

/-- A 15-player squad with only two defenders: no enumerated formation is
feasible, so the lineup is built by truncation. -/
def c10squadA : List PlayerX :=
  [mkPlayer "g1" Pos.GK 0,
   mkPlayer "d1" Pos.DEF 0, mkPlayer "d2" Pos.DEF 0,
   mkPlayer "m1" Pos.MID 0, mkPlayer "m2" Pos.MID 0, mkPlayer "m3" Pos.MID 0,
   mkPlayer "m4" Pos.MID 0, mkPlayer "m5" Pos.MID 0, mkPlayer "m6" Pos.MID 0,
   mkPlayer "m7" Pos.MID 0, mkPlayer "m8" Pos.MID 0, mkPlayer "m9" Pos.MID 0,
   mkPlayer "m0" Pos.MID 0,
   mkPlayer "f1" Pos.FWD 0, mkPlayer "f2" Pos.FWD 0]

/-- A squad with no goalkeeper. -/
def c10squadB : List PlayerX :=
  [mkPlayer "d1" Pos.DEF 5, mkPlayer "m1" Pos.MID 3]

/-! ### Claim theorems -/

/-- C1 counterexample: on an explicit 15-player squad the frontend formation
scan picks 4-3-3, while the selection the claim describes — maximum total over
the full legal set of eight, earliest listed on ties — picks 5-2-3, a feasible
formation with a strictly larger top-N total.  The claim's "enumerates every
formation in the fixed legal set of eight" is false of the code. -/
theorem c1_counterexample :
    chooseFormation c1squad = ⟨4, 3, 3⟩ ∧
      specFormationChoice c1squad = some ⟨5, 2, 3⟩ ∧
      feasibleFor c1squad ⟨5, 2, 3⟩ ∧
      totalFor c1squad (chooseFormation c1squad) < totalFor c1squad ⟨5, 2, 3⟩ := by
  refine ⟨?_, ?_, ?_, ?_⟩ <;>
    norm_num [chooseFormation, formationScan, codeFormations, formationStep,
      specFormationChoice, legalFormations, totalFor, sumEff, byPosition,
      c1squad, mkPlayer, List.insertionSort, List.orderedInsert, effGE, feasibleFor]

/-- C1 (amended): the frontend recalculation enumerates six formations —
3-5-2, 3-4-3, 4-4-2, 4-3-3, 5-3-2, 5-4-1, a strict subset of the legal eight
omitting 4-5-1 and 5-2-3 — skips any formation the squad cannot fill, and,
provided some enumerated formation is feasible with positive total, selects a
feasible enumerated formation whose top-N effective-points total is maximal
among the enumerated feasible ones; a later formation must strictly exceed the
running best to replace it, so ties go to the formation listed first. -/
theorem c1_amended :
    ((∀ f ∈ codeFormations, f ∈ legalFormations) ∧
        Formation.mk 4 5 1 ∉ codeFormations ∧ Formation.mk 5 2 3 ∉ codeFormations) ∧
      (∀ squad : List PlayerX,
        (∃ g ∈ codeFormations, feasibleFor squad g ∧ 0 < totalFor squad g) →
          chooseFormation squad ∈ codeFormations ∧
            feasibleFor squad (chooseFormation squad) ∧
            ∀ f ∈ codeFormations, feasibleFor squad f →
              totalFor squad f ≤ totalFor squad (chooseFormation squad)) ∧
      (∀ (squad : List PlayerX) (l : List Formation) (acc : Formation × ℚ)
          (f : Formation),
        totalFor squad f ≤ (l.foldl (formationStep squad) acc).2 →
          (l ++ [f]).foldl (formationStep squad) acc =
            l.foldl (formationStep squad) acc) := by
  refine ⟨by decide, ?_, ?_⟩
  · rintro squad ⟨g, hg, hgfeas, hgpos⟩
    have hle := foldl_step_le squad codeFormations (⟨3, 5, 2⟩, 0) g hg hgfeas
    have hpos : 0 < (formationScan squad).2 := lt_of_lt_of_le hgpos hle
    rcases foldl_step_shape squad codeFormations (⟨3, 5, 2⟩, 0) with h | ⟨f, hf, hfeas, heq⟩
    · exfalso
      have : (formationScan squad).2 = 0 := by
        unfold formationScan
        rw [h]
      rw [this] at hpos
      exact lt_irrefl 0 hpos
    · have hscan : formationScan squad = (f, totalFor squad f) := heq
      have hch : chooseFormation squad = f := by
        unfold chooseFormation
        rw [hscan]
      refine ⟨?_, ?_, ?_⟩
      · rw [hch]; exact hf
      · rw [hch]; exact hfeas
      · intro f₂ hf₂ hfeas₂
        have := foldl_step_le squad codeFormations (⟨3, 5, 2⟩, 0) f₂ hf₂ hfeas₂
        rw [hch]
        calc totalFor squad f₂ ≤ (formationScan squad).2 := this
          _ = totalFor squad f := by rw [hscan]
  · intro squad l acc f h
    rw [List.foldl_append, List.foldl_cons, List.foldl_nil]
    unfold formationStep
    rw [if_neg]
    rintro ⟨_, hlt⟩
    exact absurd h (not_le.mpr hlt)

/-- C1 witness: the amended theorem applied to the counterexample squad. -/
theorem c1_witness :
    chooseFormation c1squad ∈ codeFormations ∧
      feasibleFor c1squad (chooseFormation c1squad) := by
  have h := c1_amended.2.1 c1squad
    ⟨⟨3, 5, 2⟩, by decide, by decide, by
      norm_num [totalFor, sumEff, byPosition, c1squad, mkPlayer,
        List.insertionSort, List.orderedInsert, effGE]⟩
  exact ⟨h.1, h.2.1⟩

/-- C10: when every enumerated formation that is feasible has total 0 — in
particular when none is feasible — the scan keeps its initial value, the first
listed formation 3-5-2; on a 15-player squad with too few defenders the lineup
has fewer than 11 entries, and on a squad with no goalkeeper the lineup
contains the undefined goalkeeper slot. -/
theorem c10_degenerate :
    (∀ squad : List PlayerX,
        (∀ f ∈ codeFormations, feasibleFor squad f → totalFor squad f = 0) →
          chooseFormation squad = ⟨3, 5, 2⟩) ∧
      (∃ squad : List PlayerX, squad.length = 15 ∧ (xiOf squad).length < 11) ∧
      (∃ squad : List PlayerX, byPosition squad Pos.GK = [] ∧ none ∈ xiOf squad) := by
  refine ⟨?_, ⟨c10squadA, by decide, by decide⟩, ⟨c10squadB, by decide, by decide⟩⟩
  intro squad h
  unfold chooseFormation formationScan
  rw [foldl_step_no_update squad codeFormations (⟨3, 5, 2⟩, 0)
    (fun f hf hfe => le_of_eq (h f hf hfe))]

/-- C10 witness: the first part applied to the squad with too few defenders,
for which no enumerated formation is feasible. -/
theorem c10_witness : chooseFormation c10squadA = ⟨3, 5, 2⟩ :=
  c10_degenerate.1 c10squadA (by decide)

/-- C4: on a squad with the standard FPL composition — 2 goalkeepers,
5 defenders, 5 midfielders, 3 forwards — the lineup `calculateOptimalXI`
builds has exactly 11 entries, exactly one of them a goalkeeper, all of them
defined, and the chosen defender/midfielder/forward triple belongs to the
fixed legal formation set. -/
theorem c4_formation_plan (squad : List PlayerX)
    (hG : (byPosition squad Pos.GK).length = 2)
    (hD : (byPosition squad Pos.DEF).length = 5)
    (hM : (byPosition squad Pos.MID).length = 5)
    (hF : (byPosition squad Pos.FWD).length = 3) :
    (xiOf squad).length = 11 ∧
      (xiOf squad).countP isGKslot = 1 ∧
      (∀ o ∈ xiOf squad, o.isSome = true) ∧
      chooseFormation squad ∈ legalFormations := by
  have hc : chooseFormation squad ∈ codeFormations := chooseFormation_mem squad
  have hbounds : ∀ f ∈ codeFormations,
      f.dcount ≤ 5 ∧ f.mcount ≤ 5 ∧ f.fcount ≤ 3 ∧
        f.dcount + f.mcount + f.fcount = 10 := by decide
  obtain ⟨hd5, hm5, hf3, h10⟩ := hbounds _ hc
  rcases hgk : byPosition squad Pos.GK with _ | ⟨g, t⟩
  · rw [hgk] at hG
    exact absurd hG (by simp)
  have hgmem : g ∈ byPosition squad Pos.GK := by
    rw [hgk]
    exact List.mem_cons_self g t
  have hcons : xiOf squad =
      some g ::
        (((byPosition squad Pos.DEF).take (chooseFormation squad).dcount ++
            (byPosition squad Pos.MID).take (chooseFormation squad).mcount ++
            (byPosition squad Pos.FWD).take (chooseFormation squad).fcount).map some) := by
    rw [xiOf, hgk]
    rfl
  refine ⟨?_, ?_, ?_, ?_⟩
  · rw [hcons]
    simp only [List.length_cons, List.length_map, List.length_append, List.length_take,
      hD, hM, hF]
    omega
  · rw [hcons, List.countP_cons]
    have hgtrue : isGKslot (some g) = true := by
      simp [isGKslot, mem_byPosition hgmem]
    have hzero :
        List.countP isGKslot
          (((byPosition squad Pos.DEF).take (chooseFormation squad).dcount ++
              (byPosition squad Pos.MID).take (chooseFormation squad).mcount ++
              (byPosition squad Pos.FWD).take (chooseFormation squad).fcount).map some) = 0 := by
      rw [List.countP_map]
      apply List.countP_eq_zero.mpr
      intro p hp
      rcases List.mem_append.mp hp with hp' | hp'
      · rcases List.mem_append.mp hp' with hp'' | hp''
        · simp [Function.comp, isGKslot, mem_take_byPosition hp'']
        · simp [Function.comp, isGKslot, mem_take_byPosition hp'']
      · simp [Function.comp, isGKslot, mem_take_byPosition hp']
    rw [hzero, hgtrue]
    simp
  · intro o ho
    rw [hcons] at ho
    rcases List.mem_cons.mp ho with rfl | ho'
    · rfl
    · obtain ⟨p, _, rfl⟩ := List.mem_map.mp ho'
      rfl
  · have hsub : ∀ f ∈ codeFormations, f ∈ legalFormations := by decide
    exact hsub _ hc

/-- A standard-composition squad for the C4 witness. -/
def c4squadW : List PlayerX :=
  [mkPlayer "g1" Pos.GK 2, mkPlayer "g2" Pos.GK 1,
   mkPlayer "d1" Pos.DEF 4, mkPlayer "d2" Pos.DEF 4, mkPlayer "d3" Pos.DEF 3,
   mkPlayer "d4" Pos.DEF 2, mkPlayer "d5" Pos.DEF 1,
   mkPlayer "m1" Pos.MID 6, mkPlayer "m2" Pos.MID 5, mkPlayer "m3" Pos.MID 4,
   mkPlayer "m4" Pos.MID 3, mkPlayer "m5" Pos.MID 2,
   mkPlayer "f1" Pos.FWD 7, mkPlayer "f2" Pos.FWD 5, mkPlayer "f3" Pos.FWD 2]

/-- C4 witness: the theorem applied to a concrete standard-composition squad. -/
theorem c4_witness :
    (xiOf c4squadW).length = 11 ∧ (xiOf c4squadW).countP isGKslot = 1 :=
  have h := c4_formation_plan c4squadW (by decide) (by decide) (by decide) (by decide)
  ⟨h.1, h.2.1⟩

/-- C7: the captain is a member of the lineup with the greatest effective
points, and the vice-captain is a member of the lineup with the captain
removed with the greatest effective points there — the second-highest. -/
theorem c7_captain_vice (xs : List PlayerX) (c v : PlayerX)
    (hc : captainOf xs = some c) (hv : viceOf xs = some v) :
    (c ∈ xs ∧ ∀ p ∈ xs, p.effective_pts ≤ c.effective_pts) ∧
      v ∈ xs.erase c ∧ ∀ p ∈ xs.erase c, p.effective_pts ≤ v.effective_pts := by
  have hperm : List.Perm (sortedByPts xs) xs := List.perm_insertionSort effGE xs
  have hsorted : List.Sorted effGE (sortedByPts xs) := List.sorted_insertionSort effGE xs
  unfold captainOf at hc
  unfold viceOf at hv
  rcases hs : sortedByPts xs with _ | ⟨c', t⟩
  · rw [hs] at hc
    exact absurd hc (by simp)
  rw [hs] at hc hv
  rcases ht : t with _ | ⟨v', r⟩
  · rw [ht] at hv
    exact absurd hv (by simp)
  rw [ht] at hv hs
  have hc' : c' = c := by simpa using hc
  have hv' : v' = v := by simpa using hv
  rw [hc', hv'] at hs
  rw [hs] at hperm hsorted
  obtain ⟨hca, hrest⟩ := List.sorted_cons.mp hsorted
  obtain ⟨hva, _⟩ := List.sorted_cons.mp hrest
  have herase : List.Perm (xs.erase c) (v :: r) := by
    have h1 : (c :: v :: r).erase c = v :: r := List.erase_cons_head c (v :: r)
    have h2 := hperm.erase c
    rw [h1] at h2
    exact h2.symm
  refine ⟨⟨?_, ?_⟩, ?_, ?_⟩
  · exact hperm.mem_iff.mp (List.mem_cons_self c (v :: r))
  · intro p hp
    rcases List.mem_cons.mp (hperm.mem_iff.mpr hp) with rfl | hp'
    · exact le_refl _
    · exact hca p hp'
  · exact herase.mem_iff.mpr (List.mem_cons_self v r)
  · intro p hp
    rcases List.mem_cons.mp (herase.mem_iff.mp hp) with rfl | hp'
    · exact le_refl _
    · exact hva p hp'

/-- Captain pick of the C7 witness lineup. -/
def c7capt : PlayerX := mkPlayer "c7a" Pos.MID 5

/-- Vice-captain pick of the C7 witness lineup. -/
def c7vice : PlayerX := mkPlayer "c7b" Pos.FWD 3

/-- A small lineup, listed in non-sorted order, for the C7 witness. -/
def c7xi : List PlayerX := [c7vice, c7capt]

/-- C7 witness: the theorem applied to a concrete lineup. -/
theorem c7_witness : c7capt ∈ c7xi ∧ c7vice ∈ c7xi.erase c7capt :=
  have h := c7_captain_vice c7xi c7capt c7vice (by decide) (by decide)
  ⟨h.1.1, h.2.1⟩

/-- First transfer of the C9 counterexample: player 1 out, player 2 in. -/
def c9ta : Transfer :=
  { out_id := 1, in_id := 2, out_name := "A", in_name := "B", in_cost := 5, gain_4gw := 3 }

/-- Second transfer of the C9 counterexample: player 3 out, player 1 — already
transferred out by the first transfer — back in. -/
def c9tb : Transfer :=
  { out_id := 3, in_id := 1, out_name := "C", in_name := "A", in_cost := 6, gain_4gw := 2 }

/-- C9 counterexample: both additions pass the guards of `handleTryTransfer`,
yet in the resulting list the first transfer's outgoing player (id 1) is the
second transfer's incoming player, so the claimed symmetric invariant fails:
the guards never compare the new transfer's incoming player with the outgoing
players already in the list. -/
theorem c9_counterexample :
    handleTryTransfer (handleTryTransfer [] c9ta) c9tb = [c9ta, c9tb] ∧
      ¬ plannedInv [c9ta, c9tb] := by
  constructor
  · decide
  · intro h
    exact absurd rfl (h.2 c9ta (by decide) c9tb (by decide) (by decide))

/-- C9 (amended): `handleTryTransfer` and `handleRemoveTransfer` preserve the
directional invariant — outgoing ids pairwise distinct, and no transfer's
outgoing player is the incoming player of an earlier-applied transfer — and an
attempt to add a transfer whose outgoing player is already transferred out, or
is being brought in by an applied transfer, leaves the list unchanged.  The
symmetric direction (an incoming player equal to an earlier outgoing player)
is not guarded, as the counterexample shows. -/
theorem c9_amended :
    (∀ (l : List Transfer) (t : Transfer),
        plannedInvD l → plannedInvD (handleTryTransfer l t)) ∧
      (∀ (l : List Transfer) (t : Transfer),
        plannedInvD l → plannedInvD (handleRemoveTransfer l t)) ∧
      (∀ (l : List Transfer) (t : Transfer),
        (∃ p ∈ l, p.out_id = t.out_id ∨ p.in_id = t.out_id) →
          handleTryTransfer l t = l) := by
  refine ⟨?_, ?_, ?_⟩
  · intro l t h
    unfold handleTryTransfer
    cases h1 : l.any (fun p => p.out_id == t.out_id) with
    | true => simpa [h1] using h
    | false =>
      cases h2 : l.any (fun p => p.in_id == t.out_id) with
      | true => simpa [h1, h2] using h
      | false =>
        simp only [h1, h2, Bool.false_eq_true, if_false]
        unfold plannedInvD at h ⊢
        rw [List.pairwise_append]
        refine ⟨h, List.pairwise_singleton _ _, ?_⟩
        intro a ha b hb
        have hb' : b = t := by simpa using hb
        rw [hb']
        constructor
        · intro heq
          have : l.any (fun p => p.out_id == t.out_id) = true :=
            List.any_eq_true.mpr ⟨a, ha, by simp [heq]⟩
          rw [this] at h1
          cases h1
        · intro heq
          have : l.any (fun p => p.in_id == t.out_id) = true :=
            List.any_eq_true.mpr ⟨a, ha, by simp [heq.symm]⟩
          rw [this] at h2
          cases h2
  · intro l t h
    unfold handleRemoveTransfer
    unfold plannedInvD at h ⊢
    exact List.Pairwise.sublist (List.filter_sublist l) h
  · rintro l t ⟨p, hp, heq | heq⟩
    · have h1 : l.any (fun p => p.out_id == t.out_id) = true :=
        List.any_eq_true.mpr ⟨p, hp, by simp [heq]⟩
      unfold handleTryTransfer
      simp [h1]
    · have h2 : l.any (fun p => p.in_id == t.out_id) = true :=
        List.any_eq_true.mpr ⟨p, hp, by simp [heq]⟩
      unfold handleTryTransfer
      cases h1 : l.any (fun p => p.out_id == t.out_id) with
      | true => simp [h1]
      | false => simp [h1, h2]

/-- C9 witness: the amended preservation applied to an empty list and a
concrete transfer. -/
theorem c9_witness : plannedInvD (handleTryTransfer [] c9ta) :=
  c9_amended.1 [] c9ta (by decide)

/-- C8: the squad planner charges 4 × (n − 1) points for n applied transfers
when n exceeds 1 and nothing otherwise (the first transfer is free), and the
displayed net 4-gameweek gain is the planned-minus-current difference of the
starters' 4-gameweek totals minus that penalty. -/
theorem c8_planner_gain (squad : List SquadPlayer) (ts : List Transfer)
    (projections : List Projection) :
    (1 < ts.length → hitCostOf ts = 4 * ((ts.length - 1 : Nat) : ℚ)) ∧
      (ts.length ≤ 1 → hitCostOf ts = 0) ∧
      netGain4GWOf squad ts projections =
        squadTotal4GW (plannedSquadOf squad ts projections) - squadTotal4GW squad -
          hitCostOf ts := by
  refine ⟨?_, ?_, ?_⟩
  · intro h
    unfold hitCostOf
    rw [if_pos h]
    ring
  · intro h
    unfold hitCostOf
    rw [if_neg (not_lt.mpr h)]
  · unfold netGain4GWOf fourGWDiffOf
    ring

/-- First transfer of the C8 witness. -/
def c8ta : Transfer :=
  { out_id := 21, in_id := 22, out_name := "P", in_name := "Q", in_cost := 5, gain_4gw := 3 }

/-- Second transfer of the C8 witness. -/
def c8tb : Transfer :=
  { out_id := 23, in_id := 24, out_name := "R", in_name := "S", in_cost := 6, gain_4gw := 2 }

/-- C8 witness: the theorem applied to a two-transfer plan. -/
theorem c8_witness :
    hitCostOf [c8ta, c8tb] = 4 * ((([c8ta, c8tb] : List Transfer).length - 1 : Nat) : ℚ) ∧
      netGain4GWOf [] [c8ta, c8tb] [] =
        squadTotal4GW (plannedSquadOf [] [c8ta, c8tb] []) - squadTotal4GW [] -
          hitCostOf [c8ta, c8tb] :=
  ⟨(c8_planner_gain [] [c8ta, c8tb] []).1 (by decide),
    (c8_planner_gain [] [c8ta, c8tb] []).2.2⟩

/-- The outgoing squad player of the C6 counterexample. -/
def c6player : PlayerX := mkPlayer "Out6" Pos.MID 4

/-- The planned transfer of the C6 counterexample. -/
def c6transfer : Transfer :=
  { out_id := 31, in_id := 32, out_name := "Out6", in_name := "In6", in_cost := 8, gain_4gw := 5 }

/-- The incoming player's projection in the C6 counterexample: 9 projected
points. -/
def c6proj : Projection :=
  { player_id := 32, team := "T2", next_gw_pts := 9, next_4gw_pts := 30 }

/-- C6 counterexample: for a player brought in by a planned transfer the
frontend sets effective points to 9 × 0.9 = 8.1, while projected points times
(expected minutes / 90) at the displayed xMin of 80 is 9 × 80/90 = 8 — the
claimed identity fails on every incoming player with nonzero projection. -/
theorem c6_counterexample :
    (applyIncoming c6player c6transfer c6proj).effective_pts = 81 / 10 ∧
      effectivePtsSpec (applyIncoming c6player c6transfer c6proj).projected_pts
        (applyIncoming c6player c6transfer c6proj).xmin = 8 ∧
      (applyIncoming c6player c6transfer c6proj).effective_pts ≠
        effectivePtsSpec (applyIncoming c6player c6transfer c6proj).projected_pts
          (applyIncoming c6player c6transfer c6proj).xmin := by
  refine ⟨?_, ?_, ?_⟩ <;>
    norm_num [applyIncoming, effectivePtsSpec, c6player, c6transfer, c6proj, mkPlayer]

/-- C6 (amended): the engine's effective points multiply the projection by the
expected-minutes share (definition `effectivePtsSpec`), but a player brought in
by a planned transfer is assigned effective points equal to a flat 0.9 times
the projection, with xMin displayed as the constant 80; since 0.9 ≠ 80/90, the
claimed identity fails for every incoming player with a nonzero projection. -/
theorem c6_amended (player : PlayerX) (t : Transfer) (pr : Projection) :
    (applyIncoming player t pr).effective_pts = 9 / 10 * pr.next_gw_pts ∧
      (applyIncoming player t pr).xmin = 80 ∧
      (pr.next_gw_pts ≠ 0 →
        (applyIncoming player t pr).effective_pts ≠
          effectivePtsSpec (applyIncoming player t pr).projected_pts
            (applyIncoming player t pr).xmin) := by
  refine ⟨mul_comm _ _, rfl, ?_⟩
  intro hne heq
  simp only [applyIncoming, effectivePtsSpec] at heq
  have h9 : (9 / 10 : ℚ) = 80 / 90 := mul_left_cancel₀ hne heq
  norm_num at h9

/-- C6 witness: the amended theorem applied to the concrete incoming player. -/
theorem c6_witness :
    (applyIncoming c6player c6transfer c6proj).effective_pts ≠
      effectivePtsSpec (applyIncoming c6player c6transfer c6proj).projected_pts
        (applyIncoming c6player c6transfer c6proj).xmin :=
  (c6_amended c6player c6transfer c6proj).2.2 (by decide)

/-- C5: with nonnegative statistics and a positive difficulty divisor the
point projection is nonnegative; the expected-minutes estimate always lies in
[0, 90]; and the clamp is effective: a hot-form, fully available, no-risk
player with 100 minutes per start has a raw product of 94.5, clamped to 90. -/
theorem c5_projection_bounds (pos : Pos) (xg90 xa90 mf diff csProb csPts app bonus : ℚ)
    (hxg : 0 ≤ xg90) (hxa : 0 ≤ xa90) (hmf : 0 ≤ mf) (hdiff : 0 < diff)
    (hcs : 0 ≤ csProb) (hcsp : 0 ≤ csPts) (happ : 0 ≤ app) (hb : 0 ≤ bonus) :
    0 ≤ projectedPoints pos xg90 xa90 mf diff csProb csPts app bonus ∧
      (∀ (mins : ℚ) (starts : Nat) (avail : ℚ) (risk : RiskTier) (trend : FormTrend),
        0 ≤ xMin mins starts avail risk trend ∧ xMin mins starts avail risk trend ≤ 90) ∧
      (90 < xMinRaw 3000 30 1 RiskTier.noRisk FormTrend.hot ∧
        xMin 3000 30 1 RiskTier.noRisk FormTrend.hot = 90) := by
  refine ⟨?_, ?_, ?_, ?_⟩
  · have hgp : 0 ≤ goalPoints pos := by
      cases pos <;> norm_num [goalPoints]
    unfold projectedPoints
    have h1 : 0 ≤ xg90 * mf * goalPoints pos / diff :=
      div_nonneg (mul_nonneg (mul_nonneg hxg hmf) hgp) (le_of_lt hdiff)
    have h2 : 0 ≤ xa90 * mf * 3 / diff :=
      div_nonneg (mul_nonneg (mul_nonneg hxa hmf) (by norm_num)) (le_of_lt hdiff)
    have h3 : 0 ≤ csProb * csPts := mul_nonneg hcs hcsp
    linarith
  · intro mins starts avail risk trend
    unfold xMin
    constructor
    · exact le_min (by norm_num) (le_max_left 0 _)
    · exact min_le_left _ _
  · norm_num [xMinRaw, baseMins, rotationFactor, formFactor, min_def]
  · norm_num [xMin, xMinRaw, baseMins, rotationFactor, formFactor, min_def, max_def]

/-- C5 witness: the theorem applied at concrete inputs. -/
theorem c5_witness :
    0 ≤ projectedPoints Pos.FWD (9 / 10) (3 / 10) (8 / 9) (4 / 5) (1 / 10) 4 2 1 ∧
      xMin 3000 30 1 RiskTier.noRisk FormTrend.hot = 90 :=
  have h := c5_projection_bounds Pos.FWD (9 / 10) (3 / 10) (8 / 9) (4 / 5) (1 / 10) 4 2 1
    (by norm_num) (by norm_num) (by norm_num) (by norm_num)
    (by norm_num) (by norm_num) (by norm_num) (by norm_num)
  ⟨h.1, h.2.2.2⟩

/-- C2: every recommendation the modelled recommender emits satisfies the
budget constraint — incoming price at most outgoing price plus bank — and
leaves at most 3 players of every club in the resulting squad. -/
theorem c2_transfer_invariants (squad : List RPlayer) (bank : ℚ) (pool : List RPlayer)
    (r : TransferRec) (hmem : r ∈ recommendTransfers squad bank pool)
    (_hsq15 : squad.length = 15)
    (hclub : ∀ c, clubCount squad c ≤ 3) :
    r.inP.price ≤ r.outP.price + bank ∧
      ∀ c, clubCount (r.inP :: squad.erase r.outP) c ≤ 3 := by
  unfold recommendTransfers at hmem
  obtain ⟨outP, houtmem, hmap⟩ := List.mem_flatMap.mp hmem
  obtain ⟨inP, hfil, hrec⟩ := List.mem_map.mp hmap
  obtain ⟨hinmem, hok⟩ := List.mem_filter.mp hfil
  subst hrec
  simp only [candidateOK, Bool.and_eq_true, decide_eq_true_eq, beq_iff_eq] at hok
  obtain ⟨⟨hprice, hposeq⟩, hclub3⟩ := hok
  constructor
  · exact hprice
  · intro c
    by_cases hceq : c = inP.club
    · subst hceq
      exact hclub3
    · have hne : (inP.club == c) = false :=
        beq_eq_false_iff_ne.mpr fun h => hceq h.symm
      have h1 : clubCount (inP :: squad.erase outP) c = clubCount (squad.erase outP) c := by
        unfold clubCount
        rw [List.countP_cons]
        simp [hne]
      have h2 : clubCount (squad.erase outP) c ≤ clubCount squad c :=
        List.Sublist.countP_le _ (List.erase_sublist outP squad)
      calc clubCount ((mkRec outP inP).inP :: squad.erase (mkRec outP inP).outP) c
          = clubCount (squad.erase outP) c := h1
        _ ≤ clubCount squad c := h2
        _ ≤ 3 := hclub c

/-- C3: a recommendation is marked worth a hit exactly when its horizon gain
strictly exceeds the 4-point threshold — a gain of exactly 4 is not worth it —
and a worth-it recommendation's net hit value is the gain minus 4. -/
theorem c3_hit_policy (squad : List RPlayer) (bank : ℚ) (pool : List RPlayer)
    (r : TransferRec) (hmem : r ∈ recommendTransfers squad bank pool) :
    (r.worth_hit = true ↔ 4 < r.gain) ∧
      (r.gain = 4 → r.worth_hit = false) ∧
      (r.worth_hit = true → r.hit_value = r.gain - 4) := by
  unfold recommendTransfers at hmem
  obtain ⟨outP, _, hmap⟩ := List.mem_flatMap.mp hmem
  obtain ⟨inP, _, hrec⟩ := List.mem_map.mp hmap
  subst hrec
  refine ⟨?_, ?_, ?_⟩
  · simp [mkRec, worthHit]
  · intro h4
    simp only [mkRec] at h4
    show worthHit (inP.horizon_pts - outP.horizon_pts) = false
    unfold worthHit
    rw [h4]
    decide
  · intro _
    rfl

/-- Builds a candidate-pool player for the C2 and C3 witnesses. -/
def mkR (pid club : Nat) (pos : Pos) (price hz : ℚ) : RPlayer :=
  { player_id := pid, club := club, position := pos, price := price, horizon_pts := hz }

/-- The outgoing player of the C2/C3 witness: the squad's only forward. -/
def c2out : RPlayer := mkR 1 1 Pos.FWD 8 10

/-- A 15-player squad, three players from each of five clubs. -/
def c2squad : List RPlayer :=
  [c2out, mkR 2 1 Pos.MID 5 6, mkR 3 1 Pos.MID 5 6,
   mkR 4 2 Pos.MID 5 6, mkR 5 2 Pos.MID 5 6, mkR 6 2 Pos.MID 5 6,
   mkR 7 3 Pos.MID 5 6, mkR 8 3 Pos.MID 5 6, mkR 9 3 Pos.MID 5 6,
   mkR 10 4 Pos.MID 5 6, mkR 11 4 Pos.MID 5 6, mkR 12 4 Pos.MID 5 6,
   mkR 13 5 Pos.MID 5 6, mkR 14 5 Pos.MID 5 6, mkR 15 5 Pos.MID 5 6]

/-- The incoming candidate of the C2/C3 witness: same price, sixth club,
horizon gain 7. -/
def c2in : RPlayer := mkR 100 6 Pos.FWD 8 17

/-- The candidate pool of the C2/C3 witness. -/
def c2pool : List RPlayer := [c2in]

/-- The witness recommendation is produced by the modelled recommender. -/
theorem c2RecMem : mkRec c2out c2in ∈ recommendTransfers c2squad 0 c2pool := by
  apply List.mem_flatMap.mpr
  refine ⟨c2out, by decide, ?_⟩
  apply List.mem_map.mpr
  refine ⟨c2in, List.mem_filter.mpr ⟨by decide, ?_⟩, rfl⟩
  norm_num [candidateOK, clubCount, c2squad, c2out, c2in, mkR]

/-- C2 witness: the theorem applied to the concrete squad, pool and
recommendation. -/
theorem c2_witness :
    (mkRec c2out c2in).inP.price ≤ (mkRec c2out c2in).outP.price + 0 ∧
      clubCount ((mkRec c2out c2in).inP :: c2squad.erase (mkRec c2out c2in).outP) 1 ≤ 3 :=
  have h := c2_transfer_invariants c2squad 0 c2pool (mkRec c2out c2in) c2RecMem
    (by decide) (fun c => clubCount_le_of_forall_mem c2squad (by decide) c)
  ⟨h.1, h.2 1⟩

/-- C3 witness: the theorem applied to the concrete recommendation, whose
gain of 7 exceeds the threshold. -/
theorem c3_witness :
    (mkRec c2out c2in).worth_hit = true ∧
      (mkRec c2out c2in).hit_value = (mkRec c2out c2in).gain - 4 :=
  have h := c3_hit_policy c2squad 0 c2pool (mkRec c2out c2in) c2RecMem
  have hgt : 4 < (mkRec c2out c2in).gain := by
    norm_num [mkRec, c2out, c2in, mkR]
  ⟨h.1.mpr hgt, h.2.2 (h.1.mpr hgt)⟩

end FPL
